import Mathlib

/-!
Verification of the SmartQueue "delayed" FIFO ticket queue
(`lib/smart-queue.js`, the variant with ticket lifetimes and expiration
timers).  The JavaScript object state is embedded as an explicit record
`QState`; the queue mapping (a JS object keyed by ticket number) is an
association list with distinct keys; machine time (`Date.now()`) is an
explicit `now : Nat` field; `setTimeout` handles are modelled by a list of
pending `Timer`s owned by the runtime (not by the queue mapping), each with
a unique handle id, its scheduled fire time and the captured ticket number.
`Infinity` values (client limit, ticket lifetime, `expiresAt`) are
`Option Nat` with `none` standing for `Infinity`.  Invocations of the
configured handler/callback are recorded as an `events` trace.  JavaScript
payload values are `JVal`; numeric strings are represented as `JVal.vnum`
since `XP.toNumber` coerces them before use.
-/

/-- JavaScript values that flow through the queue: numbers (including
numeric strings, which `XP.toNumber` coerces), other strings, and
`null`/`undefined` (collapsed into `vnull`, both are `XP.isVoid`). -/
inductive JVal where
  | vnum (n : Nat)
  | vstr (s : String)
  | vnull
deriving DecidableEq

/-- Embeds `XP.isNumeric`. -/
def isNumeric : JVal → Bool
  | JVal.vnum _ => true
  | _ => false

/-- Embeds `XP.isVoid`. -/
def isVoid : JVal → Bool
  | JVal.vnull => true
  | _ => false

/-- Embeds `XP.toNumber` on values satisfying `isNumeric`. -/
def jToNat : JVal → Nat
  | JVal.vnum n => n
  | _ => 0

/-- One client record of the queue: the object created by `_createClient`
and mutated by `_setClient`.  `expiresAt = none` encodes
`Date.now() + Infinity`; `expHandler` is the `setTimeout` handle id
(`none` when no timer is armed or after `clearTimeout`). -/
structure Client where
  status : String
  expiresAt : Option Nat
  id : Nat
  value : JVal
  expHandler : Option Nat
deriving DecidableEq

/-- A pending `setTimeout` scheduled by `_createClient`: handle id,
absolute fire time, and the captured ticket number whose
`_removeClient(ticket)` it will run. -/
structure Timer where
  tid : Nat
  fireAt : Nat
  ticket : Nat
deriving DecidableEq

/-- Observable handler/callback invocations: `_error(msg, cb)` records the
message together with the queue status it is reported with, and the
`finished` signal records `handler(null, 'finished')` in `next`. -/
inductive Event where
  | error (msg : String) (qstatus : String)
  | finished
deriving DecidableEq

/-- The simplified `{id, value}` view produced by `_simplifyClient`. -/
structure SClient where
  id : Nat
  value : JVal
deriving DecidableEq

/-- The whole instance state: the private properties of the JS object plus
the runtime pieces it interacts with (clock, pending timers, handler
trace).  `clientLimit`/`ticketLifetime` use `none` for `Infinity`. -/
structure QState where
  status : String
  queue : List (Nat × Client)
  clientLimit : Option Nat
  ticketNumber : Nat
  ticketLifetime : Option Nat
  currentTicket : Nat
  now : Nat
  timers : List Timer
  tidNext : Nat
  events : List Event
deriving DecidableEq

/-- Embeds `self._queue[k]` (property lookup). -/
def qlookup : List (Nat × Client) → Nat → Option Client
  | [], _ => none
  | e :: r, k => if e.1 = k then some e.2 else qlookup r k

/-- Embeds `XP.withdraw(self._queue, XP.toString(k))` (key deletion). -/
def qremove (q : List (Nat × Client)) (k : Nat) : List (Nat × Client) :=
  q.filter (fun e => e.1 ≠ k)

/-- Embeds `self._queue[k] = c` (assignment: replace in place when the key
exists, append otherwise; JS objects keep one entry per key). -/
def qset : List (Nat × Client) → Nat → Client → List (Nat × Client)
  | [], k, c => [(k, c)]
  | e :: r, k, c => if e.1 = k then (k, c) :: r else e :: qset r k c

/-- Embeds `_clientNumber`, i.e. `XP.keys(this._queue).length`. -/
def qsize (q : List (Nat × Client)) : Nat :=
  q.length

/-- Embeds `_simplifyClient`. -/
def simplifyClient (c : Client) : SClient :=
  ⟨c.id, c.value⟩

/-- Embeds `_error(msg, cb)`: the handler (and optional callback) is
invoked with `(new Error(msg), self._status)`; we record the invocation. -/
def addError (msg : String) (st : QState) : QState :=
  { st with events := st.events ++ [Event.error msg st.status] }

/-- Embeds `clearTimeout(handle)`: drops the pending timer with that
handle id; a no-op on `null` handles or already-fired timers. -/
def clearTimer (h : Option Nat) (st : QState) : QState :=
  { st with timers := match h with
      | none => st.timers
      | some tid => st.timers.filter (fun tm => tm.tid ≠ tid) }

/-- Embeds `_checkAvailability(cb)`: on `_clientNumber >= _clientLimit`
sets status `'full'`, reports the error and yields `false`; `n >= Infinity`
is always false in JS, hence the `none` case. -/
def limitReached (st : QState) : Bool :=
  match st.clientLimit with
  | none => false
  | some l => decide (l ≤ qsize st.queue)

/-- Embeds `_checkAvailability(cb)` (boolean result plus state effect). -/
def checkAvailability (st : QState) : Bool × QState :=
  if limitReached st then
    (false, addError "The queue has reached its limit." { st with status := "full" })
  else (true, st)

/-- Embeds `_createClient(ticket, lifetime)`: installs the `missing`
record with `expiresAt = Date.now() + timeout` and, for a finite timeout,
arms a fresh `setTimeout` that will run `_removeClient(ticket)`. -/
def createClient (k : Nat) (lt : Option Nat) (st : QState) : QState :=
  match lt with
  | some t =>
      let c : Client :=
        { status := "missing", expiresAt := some (st.now + t), id := k,
          value := JVal.vnull, expHandler := some st.tidNext }
      { st with queue := qset st.queue k c,
                timers := st.timers ++ [⟨st.tidNext, st.now + t, k⟩],
                tidNext := st.tidNext + 1 }
  | none =>
      let c : Client :=
        { status := "missing", expiresAt := none, id := k,
          value := JVal.vnull, expHandler := none }
      { st with queue := qset st.queue k c }

/-- Embeds `_validateTicket(ticket)`: present and
`expiresAt >= Date.now()` (always true for an `Infinity` expiry). -/
def validateTicket (st : QState) (k : Nat) : Bool :=
  match qlookup st.queue k with
  | some c =>
      match c.expiresAt with
      | none => true
      | some e => decide (st.now ≤ e)
  | none => false

/-- Embeds `_setClient(ticket, value, cb)`: when `_validateTicket` fails
(unknown id or elapsed window alike) it reports
`'Ticket No. k has expired.'` and mutates nothing; otherwise it clears the
timer, sets status `'filling'` on the queue and
`value/id/status='pending'/expHandler=null` on the record. -/
def setClient (k : Nat) (v : JVal) (st : QState) : Bool × QState :=
  match qlookup st.queue k with
  | none => (false, addError ("Ticket No. " ++ toString k ++ " has expired.") st)
  | some c =>
      match c.expiresAt with
      | some e =>
          if st.now ≤ e then
            let st1 := clearTimer c.expHandler st
            let c1 : Client :=
              { c with value := v, id := k, status := "pending", expHandler := none }
            (true, { st1 with status := "filling", queue := qset st1.queue k c1 })
          else (false, addError ("Ticket No. " ++ toString k ++ " has expired.") st)
      | none =>
          let st1 := clearTimer c.expHandler st
          let c1 : Client :=
            { c with value := v, id := k, status := "pending", expHandler := none }
          (true, { st1 with status := "filling", queue := qset st1.queue k c1 })

/-- Embeds `getTicket(lifetime, cb)`: the lifetime argument falls back to
the default via `XP.toNumber(lifetime) || self._ticketLifetime` (so both a
void argument and `0` pick the default). -/
def resolveLifetime (lt : Option Nat) (st : QState) : Option Nat :=
  match lt with
  | some v => if v = 0 then st.ticketLifetime else some v
  | none => st.ticketLifetime

/-- Embeds `getTicket(lifetime, cb)`: checks availability, then allocates
`++_ticketNumber` and creates the placeholder record. -/
def getTicket (lt : Option Nat) (st : QState) : Option Nat × QState :=
  let eff := resolveLifetime lt st
  let a := checkAvailability st
  if a.1 then
    let n := a.2.ticketNumber + 1
    (some n, createClient n eff { a.2 with ticketNumber := n })
  else (none, a.2)

/-- Embeds `join(ticket, data, cb)`, with explicit recursion fuel: the JS
method recurses into itself at most twice (the second call's first
argument is the numeric fresh ticket, and the third call's data argument
is that numeric ticket, hence non-void), so fuel `3` is exact; `join`
below fixes that fuel and `joinGo_fuel` shows any fuel from 3 up agrees.
Result `none` is JS `undefined` (capacity failure). -/
def joinGo : Nat → JVal → JVal → QState → Option Bool × QState
  | 0, _, _, st => (none, st)
  | f + 1, t, d, st =>
      if isNumeric t && !(isVoid d) then
        let r := setClient (jToNat t) d st
        (some r.1, r.2)
      else
        let a := checkAvailability st
        if a.1 then
          let g := getTicket none a.2
          match g.1 with
          | some n => joinGo f (JVal.vnum n) t g.2
          | none => (none, g.2)
        else (none, a.2)

/-- Embeds `join(ticket, data, cb)`. -/
def join (t d : JVal) (st : QState) : Option Bool × QState :=
  joinGo 3 t d st

/-- Result of one `next(cb)` call: the `finished` signal (JS returns
`undefined` after reporting `'finished'`), or the simplified record the
call returns.  `nextF` pairs it with fuel for the JS self-recursion;
`none` in the first component means the fuel ran out (the JS recursion
not having returned within that many self-calls). -/
inductive NextRes where
  | finished
  | served (s : SClient)
deriving DecidableEq

/-- Embeds `next(cb)`: pre-increments the cursor, reads the record at the
new cursor, removes the record at the old cursor, then dispatches: empty
mapping reports `'finished'` (status transiently `'finished'`, reset to
`'empty'` before returning); a gap recurses; a record with a void value
reports `'Client No. cur is missing.'` and still returns the simplified
record; otherwise returns the simplified record. -/
def nextF : Nat → QState → Option NextRes × QState
  | 0, st => (none, st)
  | f + 1, st =>
      let cur := st.currentTicket + 1
      let nxt := qlookup st.queue cur
      let st1 := { st with currentTicket := cur, queue := qremove st.queue (cur - 1) }
      if qsize st1.queue = 0 then
        (some NextRes.finished,
          { st1 with status := "empty", events := st1.events ++ [Event.finished] })
      else
        match nxt with
        | none => nextF f st1
        | some c =>
            if isVoid c.value then
              (some (NextRes.served (simplifyClient c)),
                addError ("Client No. " ++ toString cur ++ " is missing.") st1)
            else (some (NextRes.served (simplifyClient c)), st1)

/-- Result of `current(cb)`: the simplified record, the empty-queue error
report (status `'finished'`), or the JS `TypeError` thrown by
`_simplifyClient(undefined)` when no record sits at the cursor. -/
inductive CurrentRes where
  | ok (s : SClient)
  | emptyErr
  | fault
deriving DecidableEq

/-- Embeds `current(cb)`. -/
def current (st : QState) : CurrentRes × QState :=
  if st.status ≠ "finished" then
    match qlookup st.queue st.currentTicket with
    | some c => (CurrentRes.ok (simplifyClient c), st)
    | none => (CurrentRes.fault, st)
  else (CurrentRes.emptyErr, addError "The queue is empty" st)

/-- Embeds `reset()`: replaces the mapping with a fresh object and zeroes
the counters; it does not touch the pending timers, the clock, the
configuration or past handler invocations. -/
def reset (st : QState) : QState :=
  { st with status := "empty", queue := [], ticketNumber := 0, currentTicket := 0 }

/-- One idle turn of the event loop after `dt` milliseconds: the clock
advances and every `setTimeout` whose time has come runs its
`_removeClient(ticket)` callback. -/
def tick (dt : Nat) (st : QState) : QState :=
  let n := st.now + dt
  let due := st.timers.filter (fun tm => decide (tm.fireAt ≤ n))
  { st with now := n,
            timers := st.timers.filter (fun tm => ¬ decide (tm.fireAt ≤ n)),
            queue := due.foldl (fun q tm => qremove q tm.ticket) st.queue }

/-- Constructor state: `initialize(opt)` with the given `limit` and
`lifetime` options (`none` = omitted, keeping the `Infinity` defaults). -/
def initWith (limit lifetime : Option Nat) : QState :=
  { status := "empty", queue := [], clientLimit := limit, ticketNumber := 0,
    ticketLifetime := lifetime, currentTicket := 0, now := 0, timers := [],
    tidNext := 0, events := [] }

/-- Constructor state with all defaults. -/
def initQ : QState :=
  initWith none none

/-- One public call on the instance, or one idle event-loop turn.
`nextOp` carries fuel for the self-recursion of `next`. -/
inductive Op where
  | issue (lt : Option Nat)
  | joinOp (t d : JVal)
  | nextOp (fuel : Nat)
  | currentOp
  | resetOp
  | tickOp (dt : Nat)
deriving DecidableEq

/-- State after one operation (return values discarded). -/
def step : Op → QState → QState
  | Op.issue lt, st => (getTicket lt st).2
  | Op.joinOp t d, st => (join t d st).2
  | Op.nextOp f, st => (nextF f st).2
  | Op.currentOp, st => (current st).2
  | Op.resetOp, st => reset st
  | Op.tickOp dt, st => tick dt st

/-- State after a sequence of operations. -/
def run (ops : List Op) (st : QState) : QState :=
  ops.foldl (fun s op => step op s) st

/-- Ticket ids handed out by the explicit `getTicket` calls of a run. -/
def runIssued : List Op → QState → List Nat
  | [], _ => []
  | Op.issue lt :: r, st => (getTicket lt st).1.toList ++ runIssued r (step (Op.issue lt) st)
  | op :: r, st => runIssued r (step op st)

/-- Operations allowed by the issue/attach phase of claim C1 (ticket
issuance, attachment, and the passage of time; no advancement, no reset). -/
def isPrep : Op → Bool
  | Op.issue _ => true
  | Op.joinOp _ _ => true
  | Op.tickOp _ => true
  | _ => false

/-- Repeatedly calls `next` until the `finished` signal, collecting the
simplified records it returns; fuel bounds both the number of calls and
each call's internal recursion. -/
def drainF : Nat → QState → Option (List SClient) × QState
  | 0, st => (none, st)
  | f + 1, st =>
      match nextF (f + 1) st with
      | (none, st1) => (none, st1)
      | (some NextRes.finished, st1) => (some [], st1)
      | (some (NextRes.served r), st1) =>
          match drainF f st1 with
          | (none, st2) => (none, st2)
          | (some l, st2) => (some (r :: l), st2)

/-- Queue statuses a caller can ever observe at a public-call boundary
(claim C10): `'finished'` exists only transiently inside `next`. -/
def statusOk (st : QState) : Prop :=
  st.status = "empty" ∨ st.status = "filling" ∨ st.status = "full"

/-- Shape invariant maintained by the issue/attach phase: the cursor is
still at zero, the mapping is sorted by strictly increasing ticket key,
and every record carries a positive key within the issued range with its
`id` field equal to its key. -/
def prepInv (st : QState) : Prop :=
  st.currentTicket = 0
  ∧ List.Pairwise (fun a b : Nat × Client => a.1 < b.1) st.queue
  ∧ ∀ e ∈ st.queue, 0 < e.1 ∧ e.1 ≤ st.ticketNumber ∧ e.2.id = e.1

/-- Claim C1's concrete scenario: issue ticket 1, attach the untargeted
payload "Jimmy" (which consumes id 2), then attach "Bob" to ticket 1. -/
def demoOps : List Op :=
  [Op.issue none, Op.joinOp (JVal.vstr "Jimmy") JVal.vnull,
   Op.joinOp (JVal.vnum 1) (JVal.vstr "Bob")]

/-- A state holding one ticket whose validity window has elapsed but whose
expiration timer has not yet run (the clock outran the event loop): ticket
1 was issued at time 0 with lifetime 5 and the clock now reads 10. -/
def expiredSt : QState :=
  { status := "empty",
    queue := [(1, { status := "missing", expiresAt := some 5, id := 1,
                    value := JVal.vnull, expHandler := some 0 })],
    clientLimit := none, ticketNumber := 1, ticketLifetime := none,
    currentTicket := 0, now := 10, timers := [⟨0, 5, 1⟩], tidNext := 1,
    events := [] }

/-! ### Association-list lemmas -/

theorem qlookup_eq_none_of_lt (q : List (Nat × Client)) (m : Nat)
    (h : ∀ e ∈ q, m < e.1) : qlookup q m = none := by
  induction q with
  | nil => rfl
  | cons e r ih =>
      have h1 := h e (by simp)
      simp only [qlookup]
      rw [if_neg (by omega)]
      exact ih (fun e' he' => h e' (by simp [he']))

theorem qremove_eq_self (q : List (Nat × Client)) (k : Nat)
    (h : ∀ e ∈ q, e.1 ≠ k) : qremove q k = q := by
  unfold qremove
  rw [List.filter_eq_self]
  intro a ha
  simpa using h a ha

theorem qlookup_qremove_ne (q : List (Nat × Client)) (k k' : Nat) (h : k ≠ k') :
    qlookup (qremove q k') k = qlookup q k := by
  induction q with
  | nil => rfl
  | cons e r ih =>
      by_cases he : e.1 = k'
      · have hq : qremove (e :: r) k' = qremove r k' := by
          simp [qremove, List.filter_cons, he]
        have hek : e.1 ≠ k := by omega
        rw [hq, ih]
        simp [qlookup, hek]
      · have hq : qremove (e :: r) k' = e :: qremove r k' := by
          simp [qremove, List.filter_cons, he]
        rw [hq]
        by_cases hek : e.1 = k
        · simp [qlookup, hek]
        · simp [qlookup, hek, ih]

theorem qlookup_mem (q : List (Nat × Client)) (k : Nat) (c : Client)
    (h : qlookup q k = some c) : (k, c) ∈ q := by
  induction q with
  | nil => cases h
  | cons e r ih =>
      simp only [qlookup] at h
      by_cases he : e.1 = k
      · rw [if_pos he] at h
        have : e = (k, c) := by
          cases e
          simp only at he
          simp only [Option.some.injEq] at h
          simp [he, h]
        simp [this]
      · rw [if_neg he] at h
        exact List.mem_cons_of_mem _ (ih h)

theorem qsize_ne_zero_of_lookup (q : List (Nat × Client)) (k : Nat) (c : Client)
    (h : qlookup q k = some c) : qsize q ≠ 0 := by
  have := qlookup_mem q k c h
  cases q with
  | nil => cases this
  | cons e r => simp [qsize]

theorem qset_fresh (q : List (Nat × Client)) (k : Nat) (c : Client)
    (h : ∀ e ∈ q, e.1 ≠ k) : qset q k c = q ++ [(k, c)] := by
  induction q with
  | nil => rfl
  | cons e r ih =>
      have h1 := h e (by simp)
      simp only [qset]
      rw [if_neg h1, ih (fun e' he' => h e' (by simp [he']))]
      rfl

theorem mem_qset (q : List (Nat × Client)) (k : Nat) (c : Client) (e : Nat × Client)
    (he : e ∈ qset q k c) : e ∈ q ∨ e = (k, c) := by
  induction q with
  | nil => simp only [qset] at he; simp at he; right; exact he
  | cons e0 r ih =>
      simp only [qset] at he
      by_cases h0 : e0.1 = k
      · rw [if_pos h0] at he
        rcases List.mem_cons.1 he with h | h
        · right; exact h
        · left; exact List.mem_cons_of_mem _ h
      · rw [if_neg h0] at he
        rcases List.mem_cons.1 he with h | h
        · left; simp [h]
        · rcases ih h with h1 | h1
          · left; exact List.mem_cons_of_mem _ h1
          · right; exact h1

theorem qlookup_qset_self (q : List (Nat × Client)) (k : Nat) (c : Client) :
    qlookup (qset q k c) k = some c := by
  induction q with
  | nil => simp [qset, qlookup]
  | cons e r ih =>
      simp only [qset]
      by_cases h0 : e.1 = k
      · rw [if_pos h0]; simp [qlookup]
      · rw [if_neg h0]; simp [qlookup, h0, ih]

theorem qlookup_qset_ne (q : List (Nat × Client)) (k m : Nat) (c : Client) (h : m ≠ k) :
    qlookup (qset q k c) m = qlookup q m := by
  induction q with
  | nil =>
      simp only [qset, qlookup]
      rw [if_neg (by omega)]
  | cons e r ih =>
      simp only [qset]
      by_cases he : e.1 = k
      · rw [if_pos he]
        simp only [qlookup]
        rw [if_neg (by omega), if_neg (by omega)]
      · rw [if_neg he]
        simp only [qlookup, ih]

theorem pairwise_qset_present (q : List (Nat × Client)) (k : Nat) (c c0 : Client)
    (hp : List.Pairwise (fun a b => a.1 < b.1) q)
    (hl : qlookup q k = some c0) :
    List.Pairwise (fun a b => a.1 < b.1) (qset q k c) := by
  induction q with
  | nil => cases hl
  | cons e r ih =>
      rcases List.pairwise_cons.1 hp with ⟨hhead, htail⟩
      simp only [qset, qlookup] at *
      by_cases h0 : e.1 = k
      · rw [if_pos h0]
        refine List.pairwise_cons.2 ⟨?_, htail⟩
        intro b hb
        have := hhead b hb
        omega
      · rw [if_neg h0]
        rw [if_neg h0] at hl
        refine List.pairwise_cons.2 ⟨?_, ih htail hl⟩
        intro b hb
        rcases mem_qset r k c b hb with h | h
        · exact hhead b h
        · have : (k, c0) ∈ r := qlookup_mem r k c0 hl
          have := hhead _ this
          simp [h]
          omega

theorem pairwise_qset_fresh (q : List (Nat × Client)) (k : Nat) (c : Client)
    (hp : List.Pairwise (fun a b => a.1 < b.1) q)
    (h : ∀ e ∈ q, e.1 < k) :
    List.Pairwise (fun a b => a.1 < b.1) (qset q k c) := by
  rw [qset_fresh q k c (fun e he => by have := h e he; omega)]
  rw [List.pairwise_append]
  refine ⟨hp, List.pairwise_singleton _ _, ?_⟩
  intro a ha b hb
  simp only [List.mem_singleton] at hb
  subst hb
  exact h a ha

/-! ### Claim C4 — `current()` -/

/-- C4 (corrected): `current()` returns the simplified record at the
cursor when the status is not `finished` and such a record exists; when
the status is `finished` it reports the empty-queue error and returns no
record; but when the status is not `finished` and no record sits at the
cursor it faults (the JS `TypeError` from `_simplifyClient(undefined)`)
rather than never faulting.  In every case the mapping, cursor, and
counters are untouched. -/
theorem c4_current_trichotomy (st : QState) :
    (st.status = "finished"
      ∧ current st = (CurrentRes.emptyErr, addError "The queue is empty" st))
    ∨ (st.status ≠ "finished"
      ∧ ∃ c, qlookup st.queue st.currentTicket = some c
        ∧ current st = (CurrentRes.ok (simplifyClient c), st))
    ∨ (st.status ≠ "finished"
      ∧ qlookup st.queue st.currentTicket = none
      ∧ current st = (CurrentRes.fault, st)) := by
  by_cases hs : st.status = "finished"
  · left
    refine ⟨hs, ?_⟩
    unfold current
    rw [if_neg (by simp [hs])]
  · cases hl : qlookup st.queue st.currentTicket with
    | some c =>
        right; left
        refine ⟨hs, c, rfl, ?_⟩
        unfold current
        rw [if_pos hs]
        simp only [hl]
    | none =>
        right; right
        refine ⟨hs, rfl, ?_⟩
        unfold current
        rw [if_pos hs]
        simp only [hl]

/-- C4 counterexample: on a freshly constructed instance the status is
`'empty'` (not `finished`) and no record sits at cursor 0, so `current()`
faults with a `TypeError` — refuting "in either case it never faults". -/
theorem c4_fault_counterexample :
    initQ.status = "empty" ∧ current initQ = (CurrentRes.fault, initQ) := by
  constructor
  · rfl
  · rfl

/-! ### Claim C6 — `reset()` -/

/-- C6 (corrected): `reset()` empties the mapping, zeroes the ticket
counter and the cursor, sets the status to `empty`, and leaves the
capacity limit and default lifetime (and the clock and the handler trace)
unchanged — but it does **not** cancel pending expiration timers: the
timer list is left exactly as it was. -/
theorem c6_reset_frame (st : QState) :
    (reset st).queue = [] ∧ (reset st).status = "empty"
    ∧ (reset st).ticketNumber = 0 ∧ (reset st).currentTicket = 0
    ∧ (reset st).timers = st.timers
    ∧ (reset st).clientLimit = st.clientLimit
    ∧ (reset st).ticketLifetime = st.ticketLifetime
    ∧ (reset st).now = st.now
    ∧ (reset st).events = st.events :=
  ⟨rfl, rfl, rfl, rfl, rfl, rfl, rfl, rfl, rfl⟩

/-- C6 counterexample: issue a ticket with lifetime 5, reset, and issue a
fresh ticket (which re-uses id 1, with unbounded lifetime).  The pre-reset
timer survives the reset, and when it fires it removes the new, unexpired
entry — refuting "cancels every pending expiration timer (so no pre-reset
timer can fire and remove an entry afterwards)". -/
theorem c6_timer_counterexample :
    (run [Op.issue (some 5), Op.resetOp, Op.issue none] initQ).timers = [⟨0, 5, 1⟩]
    ∧ (qlookup (run [Op.issue (some 5), Op.resetOp, Op.issue none] initQ).queue 1).isSome = true
    ∧ (run [Op.issue (some 5), Op.resetOp, Op.issue none, Op.tickOp 6] initQ).queue = [] := by
  refine ⟨by decide, by decide, by decide⟩

/-! ### Claim C7 — ticketed attach failures -/

/-- C7 (corrected): whenever `_validateTicket` rejects the id — both when
the record exists but its validity window has passed and when the id is
simply unknown — `_setClient` fails with the *same* `'Ticket No. k has
expired.'` report and performs no mutation beyond recording that report:
there is no distinct not-found condition for unknown ids. -/
theorem c7_attach_invalid_fails (st : QState) (k : Nat) (v : JVal)
    (h : validateTicket st k = false) :
    setClient k v st
      = (false, addError ("Ticket No. " ++ toString k ++ " has expired.") st) := by
  cases hl : qlookup st.queue k with
  | none =>
      unfold setClient
      simp only [hl]
  | some c =>
      unfold validateTicket at h
      simp only [hl] at h
      cases he : c.expiresAt with
      | none => simp only [he] at h; cases h
      | some e =>
          simp only [he, decide_eq_false_iff_not, not_le] at h
          unfold setClient
          simp only [hl, he]
          rw [if_neg (by omega)]

/-- C7 witness: the expired-but-present state `expiredSt` (lifetime 5,
clock at 10) is rejected with the expiration report and no mutation. -/
theorem c7_expired_witness :
    validateTicket expiredSt 1 = false
    ∧ setClient 1 (JVal.vstr "x") expiredSt
      = (false, addError ("Ticket No. " ++ toString 1 ++ " has expired.") expiredSt) :=
  ⟨by decide, c7_attach_invalid_fails expiredSt 1 (JVal.vstr "x") (by decide)⟩

/-- C7 counterexample: attaching to the unknown id 5 on a fresh instance
does not produce a not-found condition distinct from the expiration
error — the code reports exactly `'Ticket No. 5 has expired.'`, the same
expiration report. -/
theorem c7_notfound_counterexample :
    setClient 5 (JVal.vstr "x") initQ
      = (false, addError "Ticket No. 5 has expired." initQ)
    ∧ (setClient 5 (JVal.vstr "x") initQ).2.events
      = [Event.error "Ticket No. 5 has expired." "empty"] := by
  refine ⟨by decide, by decide⟩

/-! ### Claim C8 — capacity failure of `getTicket` -/

/-- C8 (corrected): when the outstanding count has reached the limit,
`getTicket` reports the capacity error, returns no ticket id, and leaves
the mapping, the ticket counter and the cursor unchanged — but it does
mutate the status, setting it to `'full'` before reporting. -/
theorem c8_capacity_fail (st : QState) (lt : Option Nat)
    (h : limitReached st = true) :
    getTicket lt st
      = (none, addError "The queue has reached its limit." { st with status := "full" }) := by
  unfold getTicket checkAvailability
  simp [h]

/-- C8 witness: with `limit = 1` and one outstanding ticket, `getTicket`
fails with the capacity report and the mapping, counter and cursor keep
their values. -/
theorem c8_capacity_witness :
    limitReached (run [Op.issue none] (initWith (some 1) none)) = true
    ∧ getTicket none (run [Op.issue none] (initWith (some 1) none))
      = (none, addError "The queue has reached its limit."
          { run [Op.issue none] (initWith (some 1) none) with status := "full" }) :=
  ⟨by decide, c8_capacity_fail (run [Op.issue none] (initWith (some 1) none)) none (by decide)⟩

/-- C8 counterexample: the same full queue starts with status `'empty'`
and ends with status `'full'` after the failed `getTicket` — refuting
"the status is unchanged". -/
theorem c8_status_counterexample :
    (run [Op.issue none] (initWith (some 1) none)).status = "empty"
    ∧ (getTicket none (run [Op.issue none] (initWith (some 1) none))).2.status = "full" := by
  refine ⟨by decide, by decide⟩

/-! ### Claim C2 — `next` on a still-missing record -/

/-- C2 (corrected): when `next` reaches a record that exists but is still
missing (void value), it reports the `'Client No. k is missing.'` error
for that position, keeps the record in the mapping, and leaves the cursor
at that record's position (not past it) — but it nevertheless returns the
record's simplified `{id, value: null}` form rather than returning no
record. -/
theorem c2_missing_reported (st : QState) (c : Client) (f : Nat)
    (hlook : qlookup st.queue (st.currentTicket + 1) = some c)
    (hvoid : c.value = JVal.vnull) :
    nextF (f + 1) st
      = (some (NextRes.served (simplifyClient c)),
         addError ("Client No. " ++ toString (st.currentTicket + 1) ++ " is missing.")
           { st with currentTicket := st.currentTicket + 1,
                     queue := qremove st.queue st.currentTicket })
    ∧ qlookup (nextF (f + 1) st).2.queue (st.currentTicket + 1) = some c
    ∧ (nextF (f + 1) st).2.currentTicket = st.currentTicket + 1 := by
  have hrm : qlookup (qremove st.queue st.currentTicket) (st.currentTicket + 1) = some c := by
    rw [qlookup_qremove_ne _ _ _ (by omega)]
    exact hlook
  have hsz : qsize (qremove st.queue st.currentTicket) ≠ 0 :=
    qsize_ne_zero_of_lookup _ _ _ hrm
  have hv : isVoid c.value = true := by rw [hvoid]; rfl
  have heq : nextF (f + 1) st
      = (some (NextRes.served (simplifyClient c)),
         addError ("Client No. " ++ toString (st.currentTicket + 1) ++ " is missing.")
           { st with currentTicket := st.currentTicket + 1,
                     queue := qremove st.queue st.currentTicket }) := by
    simp only [nextF, Nat.add_sub_cancel]
    rw [if_neg hsz]
    simp only [hlook, hv, if_true]
  refine ⟨heq, ?_, ?_⟩
  · rw [heq]
    exact hrm
  · rw [heq]
    rfl

/-- C2 counterexample: with ticket 1 reserved but never filled, `next`
returns the simplified record `{id: 1, value: null}` as its result (in
addition to reporting the missing-client error) — refuting "does not
return the record as the served result". -/
theorem c2_missing_counterexample :
    (nextF 1 (run [Op.issue none] initQ)).1
      = some (NextRes.served ⟨1, JVal.vnull⟩)
    ∧ (nextF 1 (run [Op.issue none] initQ)).2.events
      = [Event.error "Client No. 1 is missing." "empty"] := by
  refine ⟨by decide, by decide⟩

/-- C2 witness: the amended statement at the concrete one-reserved-ticket
state. -/
theorem c2_missing_witness :
    qlookup (run [Op.issue none] initQ).queue ((run [Op.issue none] initQ).currentTicket + 1)
      = some ⟨"missing", none, 1, JVal.vnull, none⟩
    ∧ (nextF 1 (run [Op.issue none] initQ)
        = (some (NextRes.served (simplifyClient ⟨"missing", none, 1, JVal.vnull, none⟩)),
           addError ("Client No. "
               ++ toString ((run [Op.issue none] initQ).currentTicket + 1) ++ " is missing.")
             { run [Op.issue none] initQ with
               currentTicket := (run [Op.issue none] initQ).currentTicket + 1,
               queue := qremove (run [Op.issue none] initQ).queue
                 (run [Op.issue none] initQ).currentTicket })
        ∧ qlookup (nextF 1 (run [Op.issue none] initQ)).2.queue
            ((run [Op.issue none] initQ).currentTicket + 1)
          = some ⟨"missing", none, 1, JVal.vnull, none⟩
        ∧ (nextF 1 (run [Op.issue none] initQ)).2.currentTicket
          = (run [Op.issue none] initQ).currentTicket + 1) :=
  ⟨by decide, c2_missing_reported (run [Op.issue none] initQ) ⟨"missing", none, 1, JVal.vnull, none⟩ 0 (by decide) rfl⟩

/-! ### Claim C3 — `next` on a filled record -/

/-- C3 (corrected): when `next` finds a record with a non-void value at
the new cursor position it returns the record's simplified `{id, value}`
form, reports nothing — and leaves the record (and in particular its
`status`) entirely unchanged in the mapping: it does not set the status to
`working` (that marking exists only in the non-delayed variant of the
class, which returns the full record instead). -/
theorem c3_serve_simplified (st : QState) (c : Client) (f : Nat)
    (hlook : qlookup st.queue (st.currentTicket + 1) = some c)
    (hval : isVoid c.value = false) :
    nextF (f + 1) st
      = (some (NextRes.served (simplifyClient c)),
         { st with currentTicket := st.currentTicket + 1,
                   queue := qremove st.queue st.currentTicket })
    ∧ qlookup (nextF (f + 1) st).2.queue (st.currentTicket + 1) = some c
    ∧ (nextF (f + 1) st).2.events = st.events := by
  have hrm : qlookup (qremove st.queue st.currentTicket) (st.currentTicket + 1) = some c := by
    rw [qlookup_qremove_ne _ _ _ (by omega)]
    exact hlook
  have hsz : qsize (qremove st.queue st.currentTicket) ≠ 0 :=
    qsize_ne_zero_of_lookup _ _ _ hrm
  have heq : nextF (f + 1) st
      = (some (NextRes.served (simplifyClient c)),
         { st with currentTicket := st.currentTicket + 1,
                   queue := qremove st.queue st.currentTicket }) := by
    simp only [nextF, Nat.add_sub_cancel]
    rw [if_neg hsz]
    simp only [hlook, hval, Bool.false_eq_true, if_false]
  refine ⟨heq, ?_, ?_⟩
  · rw [heq]
    exact hrm
  · rw [heq]

/-- C3 counterexample: after attaching "Bob" to ticket 1 and serving it
with `next`, the served record's status is still `'pending'` in the
mapping, not `'working'` — refuting "sets that record's status to
`working`". -/
theorem c3_working_counterexample :
    (nextF 1 (run [Op.issue none, Op.joinOp (JVal.vnum 1) (JVal.vstr "Bob")] initQ)).1
      = some (NextRes.served ⟨1, JVal.vstr "Bob"⟩)
    ∧ Option.map Client.status
        (qlookup (nextF 1 (run [Op.issue none, Op.joinOp (JVal.vnum 1) (JVal.vstr "Bob")] initQ)).2.queue 1)
      = some "pending"
    ∧ some "pending" ≠ some "working" := by
  refine ⟨by decide, by decide, by decide⟩

/-- C3 witness: the amended statement at the concrete issue-then-attach
state. -/
theorem c3_serve_witness :
    qlookup (run [Op.issue none, Op.joinOp (JVal.vnum 1) (JVal.vstr "Bob")] initQ).queue
        ((run [Op.issue none, Op.joinOp (JVal.vnum 1) (JVal.vstr "Bob")] initQ).currentTicket + 1)
      = some ⟨"pending", none, 1, JVal.vstr "Bob", none⟩
    ∧ (nextF 1 (run [Op.issue none, Op.joinOp (JVal.vnum 1) (JVal.vstr "Bob")] initQ)
        = (some (NextRes.served (simplifyClient ⟨"pending", none, 1, JVal.vstr "Bob", none⟩)),
           { run [Op.issue none, Op.joinOp (JVal.vnum 1) (JVal.vstr "Bob")] initQ with
             currentTicket :=
               (run [Op.issue none, Op.joinOp (JVal.vnum 1) (JVal.vstr "Bob")] initQ).currentTicket + 1,
             queue := qremove
               (run [Op.issue none, Op.joinOp (JVal.vnum 1) (JVal.vstr "Bob")] initQ).queue
               (run [Op.issue none, Op.joinOp (JVal.vnum 1) (JVal.vstr "Bob")] initQ).currentTicket })
        ∧ qlookup (nextF 1 (run [Op.issue none, Op.joinOp (JVal.vnum 1) (JVal.vstr "Bob")] initQ)).2.queue
            ((run [Op.issue none, Op.joinOp (JVal.vnum 1) (JVal.vstr "Bob")] initQ).currentTicket + 1)
          = some ⟨"pending", none, 1, JVal.vstr "Bob", none⟩
        ∧ (nextF 1 (run [Op.issue none, Op.joinOp (JVal.vnum 1) (JVal.vstr "Bob")] initQ)).2.events
          = (run [Op.issue none, Op.joinOp (JVal.vnum 1) (JVal.vstr "Bob")] initQ).events) :=
  ⟨by decide,
   c3_serve_simplified (run [Op.issue none, Op.joinOp (JVal.vnum 1) (JVal.vstr "Bob")] initQ)
     ⟨"pending", none, 1, JVal.vstr "Bob", none⟩ 0 (by decide) (by decide)⟩

/-! ### Claim C9 — `join` dispatch -/

theorem joinGo_succ (f : Nat) (t d : JVal) (st : QState) :
    joinGo (f + 1) t d st
      = if (isNumeric t && !(isVoid d)) = true then
          (some (setClient (jToNat t) d st).1, (setClient (jToNat t) d st).2)
        else
          if (checkAvailability st).1 = true then
            match (getTicket none (checkAvailability st).2).1 with
            | some n => joinGo f (JVal.vnum n) t (getTicket none (checkAvailability st).2).2
            | none => (none, (getTicket none (checkAvailability st).2).2)
          else (none, (checkAvailability st).2) := rfl

theorem joinGo_numeric_nonvoid (f : Nat) (hf : f ≠ 0) (n : Nat) (t : JVal)
    (ht : isVoid t = false) (st : QState) :
    joinGo f (JVal.vnum n) t st = (some (setClient n t st).1, (setClient n t st).2) := by
  cases f with
  | zero => cases hf rfl
  | succ f' =>
      rw [joinGo_succ, if_pos (by simp [isNumeric, ht])]
      rfl

theorem setClient_fresh (k : Nat) (v : JVal) (lt : Option Nat) (st : QState) :
    (setClient k v (createClient k lt st)).1 = true
    ∧ (setClient k v (createClient k lt st)).2.ticketNumber = st.ticketNumber
    ∧ qlookup (setClient k v (createClient k lt st)).2.queue k
      = some { status := "pending", expiresAt := Option.map (fun x => st.now + x) lt, id := k,
               value := v, expHandler := none }
    ∧ ∀ m, m ≠ k → qlookup (setClient k v (createClient k lt st)).2.queue m
      = qlookup st.queue m := by
  refine ⟨?_, ?_, ?_, ?_⟩
  · cases lt <;> simp [createClient, setClient, clearTimer, qlookup_qset_self, Nat.le_add_right]
  · cases lt <;> simp [createClient, setClient, clearTimer, qlookup_qset_self, Nat.le_add_right]
  · cases lt <;> simp [createClient, setClient, clearTimer, qlookup_qset_self, Nat.le_add_right]
  · intro m hm
    cases lt <;>
      simp [createClient, setClient, clearTimer, qlookup_qset_self, qlookup_qset_ne, hm,
        Nat.le_add_right]

/-- Untargeted `join` below capacity with a non-void first argument issues
one fresh ticket and stores that argument as the fresh record's pending
payload. -/
theorem join_untargeted_nonvoid (st : QState) (t d : JVal)
    (hshape : (isNumeric t && !(isVoid d)) = false)
    (ht : isVoid t = false)
    (hcap : limitReached st = false) :
    (join t d st).1 = some true
    ∧ (join t d st).2.ticketNumber = st.ticketNumber + 1
    ∧ Option.map Client.value (qlookup (join t d st).2.queue (st.ticketNumber + 1)) = some t
    ∧ Option.map Client.status (qlookup (join t d st).2.queue (st.ticketNumber + 1))
      = some "pending" := by
  have hca : checkAvailability st = (true, st) := by
    unfold checkAvailability
    rw [hcap]
    rfl
  have hgt : getTicket none st
      = (some (st.ticketNumber + 1),
         createClient (st.ticketNumber + 1) st.ticketLifetime
           { st with ticketNumber := st.ticketNumber + 1 }) := by
    unfold getTicket resolveLifetime
    rw [hca]
    rfl
  have hj : join t d st
      = (some (setClient (st.ticketNumber + 1) t
            (createClient (st.ticketNumber + 1) st.ticketLifetime
              { st with ticketNumber := st.ticketNumber + 1 })).1,
         (setClient (st.ticketNumber + 1) t
            (createClient (st.ticketNumber + 1) st.ticketLifetime
              { st with ticketNumber := st.ticketNumber + 1 })).2) := by
    unfold join
    rw [joinGo_succ, if_neg (by simp [hshape])]
    rw [hca]
    dsimp only
    rw [if_pos rfl, hgt]
    exact joinGo_numeric_nonvoid 2 (by omega) _ t ht _
  refine ⟨?_, ?_, ?_, ?_⟩ <;> rw [hj] <;> cases hlt : st.ticketLifetime <;>
    simp [createClient, setClient, clearTimer, qlookup_qset_self, Nat.le_add_right]

/-- C9 counterexample: `join(999, "x")` with 999 not an outstanding ticket
id takes the ticketed path anyway (failing with the has-expired report and
issuing no fresh ticket), instead of treating the first argument as an
untargeted payload as the claim requires. -/
theorem c9_dispatch_counterexample :
    join (JVal.vnum 999) (JVal.vstr "x") initQ
      = (some false, addError "Ticket No. 999 has expired." initQ)
    ∧ (join (JVal.vnum 999) (JVal.vstr "x") initQ).2.ticketNumber = 0 := by
  refine ⟨by decide, by decide⟩


/-! ### Field-preservation lemmas for the public operations -/

theorem getTicket_success (lt : Option Nat) (st : QState) (hcap : limitReached st = false) :
    getTicket lt st
      = (some (st.ticketNumber + 1),
         createClient (st.ticketNumber + 1) (resolveLifetime lt st)
           { st with ticketNumber := st.ticketNumber + 1 }) := by
  have hca : checkAvailability st = (true, st) := by
    unfold checkAvailability
    rw [hcap]
    rfl
  unfold getTicket
  rw [hca]
  rfl

theorem getTicket_fail (lt : Option Nat) (st : QState) (hcap : limitReached st = true) :
    getTicket lt st
      = (none, addError "The queue has reached its limit." { st with status := "full" }) := by
  unfold getTicket checkAvailability
  simp [hcap]

theorem createClient_tn (k : Nat) (lt : Option Nat) (st : QState) :
    (createClient k lt st).ticketNumber = st.ticketNumber := by
  cases lt <;> rfl

theorem createClient_status (k : Nat) (lt : Option Nat) (st : QState) :
    (createClient k lt st).status = st.status := by
  cases lt <;> rfl

theorem createClient_currentTicket (k : Nat) (lt : Option Nat) (st : QState) :
    (createClient k lt st).currentTicket = st.currentTicket := by
  cases lt <;> rfl

theorem createClient_queue (k : Nat) (lt : Option Nat) (st : QState) :
    (createClient k lt st).queue
      = qset st.queue k
          { status := "missing", expiresAt := Option.map (fun t => st.now + t) lt, id := k,
            value := JVal.vnull,
            expHandler := if lt.isSome then some st.tidNext else none } := by
  cases lt <;> rfl

theorem setClient_tn (k : Nat) (v : JVal) (st : QState) :
    (setClient k v st).2.ticketNumber = st.ticketNumber := by
  unfold setClient
  split
  · rfl
  · split
    · split <;> rfl
    · rfl

theorem setClient_currentTicket (k : Nat) (v : JVal) (st : QState) :
    (setClient k v st).2.currentTicket = st.currentTicket := by
  unfold setClient
  split
  · rfl
  · split
    · split <;> rfl
    · rfl

theorem setClient_status (k : Nat) (v : JVal) (st : QState) :
    (setClient k v st).2.status = "filling" ∨ (setClient k v st).2.status = st.status := by
  unfold setClient
  split
  · right; rfl
  · split
    · split
      · left; rfl
      · right; rfl
    · left; rfl

theorem getTicket_tn_mono (lt : Option Nat) (st : QState) :
    st.ticketNumber ≤ (getTicket lt st).2.ticketNumber := by
  cases hcap : limitReached st with
  | false =>
      rw [getTicket_success lt st hcap]
      rw [createClient_tn]
      exact Nat.le_succ _
  | true =>
      rw [getTicket_fail lt st hcap]
      exact Nat.le_refl _

theorem getTicket_status (lt : Option Nat) (st : QState) :
    (getTicket lt st).2.status = "full" ∨ (getTicket lt st).2.status = st.status := by
  cases hcap : limitReached st with
  | false =>
      right
      rw [getTicket_success lt st hcap, createClient_status]
  | true =>
      left
      rw [getTicket_fail lt st hcap]
      rfl

theorem getTicket_currentTicket (lt : Option Nat) (st : QState) :
    (getTicket lt st).2.currentTicket = st.currentTicket := by
  cases hcap : limitReached st with
  | false => rw [getTicket_success lt st hcap, createClient_currentTicket]
  | true =>
      rw [getTicket_fail lt st hcap]
      rfl

theorem joinGo_tn_mono (f : Nat) : ∀ (t d : JVal) (st : QState),
    st.ticketNumber ≤ (joinGo f t d st).2.ticketNumber := by
  induction f with
  | zero => intro t d st; exact Nat.le_refl _
  | succ f ih =>
      intro t d st
      rw [joinGo_succ]
      split
      · rw [setClient_tn]
      · cases hcap : limitReached st with
        | true =>
            have hca : checkAvailability st
                = (false, addError "The queue has reached its limit." { st with status := "full" }) := by
              unfold checkAvailability
              rw [hcap]
              rfl
            rw [hca]
            dsimp only
            rw [if_neg (by simp)]
            exact Nat.le_refl _
        | false =>
            have hca : checkAvailability st = (true, st) := by
              unfold checkAvailability
              rw [hcap]
              rfl
            rw [hca]
            dsimp only
            rw [if_pos rfl]
            rw [getTicket_success _ _ hcap]
            dsimp only
            calc st.ticketNumber
                ≤ (createClient (st.ticketNumber + 1) (resolveLifetime none st)
                    { st with ticketNumber := st.ticketNumber + 1 }).ticketNumber := by
                  rw [createClient_tn]
                  exact Nat.le_succ _
              _ ≤ _ := ih _ _ _

theorem joinGo_status (f : Nat) : ∀ (t d : JVal) (st : QState),
    (joinGo f t d st).2.status = "filling" ∨ (joinGo f t d st).2.status = "full"
    ∨ (joinGo f t d st).2.status = st.status := by
  induction f with
  | zero => intro t d st; right; right; rfl
  | succ f ih =>
      intro t d st
      rw [joinGo_succ]
      split
      · rcases setClient_status (jToNat t) d st with h | h
        · left; exact h
        · right; right; exact h
      · cases hcap : limitReached st with
        | true =>
            have hca : checkAvailability st
                = (false, addError "The queue has reached its limit." { st with status := "full" }) := by
              unfold checkAvailability
              rw [hcap]
              rfl
            rw [hca]
            dsimp only
            rw [if_neg (by simp)]
            right; left; rfl
        | false =>
            have hca : checkAvailability st = (true, st) := by
              unfold checkAvailability
              rw [hcap]
              rfl
            rw [hca]
            dsimp only
            rw [if_pos rfl]
            rw [getTicket_success _ _ hcap]
            dsimp only
            rcases ih (JVal.vnum (st.ticketNumber + 1)) t
                (createClient (st.ticketNumber + 1) (resolveLifetime none st)
                  { st with ticketNumber := st.ticketNumber + 1 }) with h | h | h
            · left; exact h
            · right; left; exact h
            · right; right
              rw [h, createClient_status]

theorem nextF_tn (f : Nat) : ∀ st : QState, (nextF f st).2.ticketNumber = st.ticketNumber := by
  induction f with
  | zero => intro st; rfl
  | succ f ih =>
      intro st
      simp only [nextF]
      split
      · rfl
      · split
        · exact ih _
        · split <;> rfl

theorem nextF_status (f : Nat) : ∀ st : QState,
    (nextF f st).2.status = "empty" ∨ (nextF f st).2.status = st.status := by
  induction f with
  | zero => intro st; right; rfl
  | succ f ih =>
      intro st
      simp only [nextF]
      split
      · left; rfl
      · split
        · exact ih _
        · split
          · right; rfl
          · right; rfl

theorem current_snd (st : QState) :
    (current st).2 = st ∨ (current st).2 = addError "The queue is empty" st := by
  unfold current
  split
  · split
    · left; rfl
    · left; rfl
  · right; rfl

theorem step_tn_mono (op : Op) (st : QState) (h : op ≠ Op.resetOp) :
    st.ticketNumber ≤ (step op st).ticketNumber := by
  cases op with
  | issue lt => exact getTicket_tn_mono lt st
  | joinOp t d => exact joinGo_tn_mono 3 t d st
  | nextOp f => rw [step, nextF_tn]
  | currentOp =>
      rcases current_snd st with hc | hc <;> rw [step, hc]
      rfl
  | resetOp => cases h rfl
  | tickOp dt => exact Nat.le_refl _

theorem statusOk_step (op : Op) (st : QState) (h : statusOk st) : statusOk (step op st) := by
  cases op with
  | issue lt =>
      rcases getTicket_status lt st with hs | hs
      · right; right; exact hs
      · show statusOk (getTicket lt st).2
        rw [statusOk, hs]
        exact h
  | joinOp t d =>
      rcases joinGo_status 3 t d st with hs | hs | hs
      · right; left; exact hs
      · right; right; exact hs
      · show statusOk (joinGo 3 t d st).2
        rw [statusOk, hs]
        exact h
  | nextOp f =>
      rcases nextF_status f st with hs | hs
      · left; exact hs
      · show statusOk (nextF f st).2
        rw [statusOk, hs]
        exact h
  | currentOp =>
      rcases current_snd st with hc | hc
      · show statusOk (current st).2
        rw [hc]
        exact h
      · show statusOk (current st).2
        rw [hc]
        exact h
  | resetOp => left; rfl
  | tickOp dt => exact h

theorem statusOk_run : ∀ (ops : List Op) (st : QState), statusOk st → statusOk (run ops st) := by
  intro ops
  induction ops with
  | nil => intro st h; exact h
  | cons op r ih =>
      intro st h
      show statusOk (run r (step op st))
      exact ih _ (statusOk_step op st h)

/-! ### Claim C5 — monotonicity of issued ticket ids -/

theorem runIssued_cons_other (op : Op) (r : List Op) (st : QState)
    (h : ∀ lt, op ≠ Op.issue lt) :
    runIssued (op :: r) st = runIssued r (step op st) := by
  cases op with
  | issue lt => cases h lt rfl
  | joinOp t d => rfl
  | nextOp f => rfl
  | currentOp => rfl
  | resetOp => rfl
  | tickOp dt => rfl

theorem runIssued_gt (ops : List Op) : ∀ st : QState, Op.resetOp ∉ ops →
    List.Chain' (· < ·) (runIssued ops st)
    ∧ ∀ n ∈ runIssued ops st, st.ticketNumber < n := by
  induction ops with
  | nil =>
      intro st _
      exact ⟨List.chain'_nil, by intro n hn; cases hn⟩
  | cons op r ih =>
      intro st hnr
      have hnr' : Op.resetOp ∉ r := fun hm => hnr (List.mem_cons_of_mem _ hm)
      have hopne : op ≠ Op.resetOp := fun he => hnr (he ▸ List.mem_cons_self _ _)
      cases op with
      | issue lt =>
          cases hcap : limitReached st with
          | true =>
              have hfail := getTicket_fail lt st hcap
              have hrw : runIssued (Op.issue lt :: r) st
                  = runIssued r (step (Op.issue lt) st) := by
                show (getTicket lt st).1.toList ++ _ = _
                rw [hfail]
                rfl
              rw [hrw]
              have hst : (step (Op.issue lt) st).ticketNumber = st.ticketNumber := by
                show (getTicket lt st).2.ticketNumber = _
                rw [hfail]
                rfl
              rcases ih (step (Op.issue lt) st) hnr' with ⟨hc, hgt⟩
              refine ⟨hc, ?_⟩
              intro n hn
              have := hgt n hn
              omega
          | false =>
              have hsucc := getTicket_success lt st hcap
              have hrw : runIssued (Op.issue lt :: r) st
                  = (st.ticketNumber + 1) :: runIssued r (step (Op.issue lt) st) := by
                show (getTicket lt st).1.toList ++ _ = _
                rw [hsucc]
                rfl
              have hst : (step (Op.issue lt) st).ticketNumber = st.ticketNumber + 1 := by
                show (getTicket lt st).2.ticketNumber = _
                rw [hsucc]
                exact createClient_tn _ _ _
              rcases ih (step (Op.issue lt) st) hnr' with ⟨hc, hgt⟩
              rw [hst] at hgt
              rw [hrw]
              constructor
              · rw [List.chain'_cons']
                refine ⟨?_, hc⟩
                intro y hy
                have hmem : y ∈ runIssued r (step (Op.issue lt) st) :=
                  List.mem_of_mem_head? hy
                have := hgt y hmem
                omega
              · intro n hn
                rcases List.mem_cons.1 hn with hn | hn
                · omega
                · have := hgt n hn
                  omega
      | joinOp t d =>
          rw [runIssued_cons_other _ _ _ (by intro lt h; cases h)]
          rcases ih (step (Op.joinOp t d) st) hnr' with ⟨hc, hgt⟩
          refine ⟨hc, ?_⟩
          intro n hn
          have h1 := hgt n hn
          have h2 := step_tn_mono (Op.joinOp t d) st (by intro h; cases h)
          omega
      | nextOp f =>
          rw [runIssued_cons_other _ _ _ (by intro lt h; cases h)]
          rcases ih (step (Op.nextOp f) st) hnr' with ⟨hc, hgt⟩
          refine ⟨hc, ?_⟩
          intro n hn
          have h1 := hgt n hn
          have h2 := step_tn_mono (Op.nextOp f) st (by intro h; cases h)
          omega
      | currentOp =>
          rw [runIssued_cons_other _ _ _ (by intro lt h; cases h)]
          rcases ih (step Op.currentOp st) hnr' with ⟨hc, hgt⟩
          refine ⟨hc, ?_⟩
          intro n hn
          have h1 := hgt n hn
          have h2 := step_tn_mono Op.currentOp st (by intro h; cases h)
          omega
      | resetOp => cases hopne rfl
      | tickOp dt =>
          rw [runIssued_cons_other _ _ _ (by intro lt h; cases h)]
          rcases ih (step (Op.tickOp dt) st) hnr' with ⟨hc, hgt⟩
          refine ⟨hc, ?_⟩
          intro n hn
          have h1 := hgt n hn
          have h2 := step_tn_mono (Op.tickOp dt) st (by intro h; cases h)
          omega

/-- C5 (corrected): within any call sequence that contains no `reset()`,
the ticket ids handed out by successful `getTicket` calls are strictly
increasing positive integers (hence never repeated); but `reset()` zeroes
the ticket counter, so after a reset previously issued ids are handed out
again — the claim's "no id is ever returned twice ... including after a
reset()" does not hold. -/
theorem c5_ids_monotone (ops : List Op) (h : Op.resetOp ∉ ops) :
    List.Chain' (· < ·) (runIssued ops initQ)
    ∧ ∀ n ∈ runIssued ops initQ, 1 ≤ n := by
  rcases runIssued_gt ops initQ h with ⟨hc, hgt⟩
  refine ⟨hc, ?_⟩
  intro n hn
  have := hgt n hn
  have hz : initQ.ticketNumber = 0 := rfl
  omega

/-- C5 witness: a reset-free sequence (issue, untargeted join, issue)
hands out the strictly increasing ids 1 and 3. -/
theorem c5_ids_witness :
    Op.resetOp ∉ [Op.issue none, Op.joinOp (JVal.vstr "J") JVal.vnull, Op.issue none]
    ∧ (List.Chain' (· < ·)
        (runIssued [Op.issue none, Op.joinOp (JVal.vstr "J") JVal.vnull, Op.issue none] initQ)
      ∧ ∀ n ∈ runIssued [Op.issue none, Op.joinOp (JVal.vstr "J") JVal.vnull, Op.issue none] initQ,
          1 ≤ n) :=
  ⟨by decide, c5_ids_monotone _ (by decide)⟩

/-- C5 counterexample: `getTicket` returns 1, then after `reset()` the
next `getTicket` returns 1 again — the same id is returned twice in one
call sequence. -/
theorem c5_reuse_counterexample :
    runIssued [Op.issue none, Op.resetOp, Op.issue none] initQ = [1, 1]
    ∧ ¬ List.Nodup (runIssued [Op.issue none, Op.resetOp, Op.issue none] initQ) := by
  refine ⟨by decide, by decide⟩

/-! ### Claim C10 — `finished` is transient -/

/-- C10 (confirmed): after any sequence of public operations (and idle
event-loop turns) starting from a fresh instance, the status is never
`finished` — `next` sets it to `finished` only while invoking the handler
and restores `empty` before returning — so the `finished` branch of
`current()` (the empty-queue error report) is unreachable at public-call
boundaries. -/
theorem c10_no_finished (ops : List Op) :
    (run ops initQ).status ≠ "finished"
    ∧ (current (run ops initQ)).1 ≠ CurrentRes.emptyErr := by
  have h : statusOk (run ops initQ) := statusOk_run ops initQ (Or.inl rfl)
  have hne : (run ops initQ).status ≠ "finished" := by
    rcases h with h | h | h <;> rw [h] <;> decide
  refine ⟨hne, ?_⟩
  unfold current
  rw [if_pos hne]
  split <;> simp

/-! ### Claim C1 — in-order draining of a fully attached queue -/

theorem nextF_serves_head (f : Nat) : ∀ (st : QState) (k : Nat) (c : Client)
    (rest : List (Nat × Client)),
    st.queue = (k, c) :: rest →
    st.currentTicket < k → k ≤ st.currentTicket + f →
    (∀ e ∈ st.queue, st.currentTicket < e.1) →
    List.Pairwise (fun a b : Nat × Client => a.1 < b.1) st.queue →
    isVoid c.value = false →
    nextF f st
      = (some (NextRes.served (simplifyClient c)), { st with currentTicket := k }) := by
  induction f with
  | zero =>
      intro st k c rest hq hlt hle hall hp hval
      omega
  | succ f ih =>
      intro st k c rest hq hlt hle hall hp hval
      have hrm : qremove st.queue st.currentTicket = st.queue := by
        apply qremove_eq_self
        intro e he
        have := hall e he
        omega
      have hsz : qsize st.queue ≠ 0 := by
        rw [hq]
        simp [qsize]
      by_cases hk : k = st.currentTicket + 1
      · have hlook : qlookup st.queue (st.currentTicket + 1) = some c := by
          rw [hq, ← hk]
          simp [qlookup]
        simp only [nextF, Nat.add_sub_cancel]
        rw [hrm]
        rw [if_neg hsz]
        simp only [hlook, hval, Bool.false_eq_true, if_false]
        rw [hk]
      · have hnl : qlookup st.queue (st.currentTicket + 1) = none := by
          apply qlookup_eq_none_of_lt
          intro e he
          rw [hq] at he
          rcases List.mem_cons.1 he with he | he
          · rw [he]
            simp only
            omega
          · have hke : k < e.1 := by
              rw [hq] at hp
              exact (List.pairwise_cons.1 hp).1 e he
            omega
        simp only [nextF, Nat.add_sub_cancel]
        rw [hrm]
        rw [if_neg hsz]
        simp only [hnl]
        refine ih { st with currentTicket := st.currentTicket + 1, queue := st.queue } k c rest
          hq ?_ ?_ ?_ hp hval
        · show st.currentTicket + 1 < k
          omega
        · show k ≤ st.currentTicket + 1 + f
          omega
        · intro e he
          show st.currentTicket + 1 < e.1
          have he' : e ∈ st.queue := he
          rcases List.mem_cons.1 (hq ▸ he') with h1 | h1
          · have hek : e.1 = k := by rw [h1]
            omega
          · have hke : k < e.1 := by
              rw [hq] at hp
              exact (List.pairwise_cons.1 hp).1 e h1
            omega

theorem drainF_from (rest : List (Nat × Client)) : ∀ (st : QState) (k : Nat) (c : Client)
    (f B : Nat),
    st.queue = (k, c) :: rest →
    st.currentTicket = k →
    List.Pairwise (fun a b : Nat × Client => a.1 < b.1) st.queue →
    (∀ e ∈ st.queue, e.1 ≤ B) →
    (∀ e ∈ rest, isVoid e.2.value = false) →
    rest.length + B + 1 ≤ f →
    ∃ stf, drainF f st = (some (rest.map (fun e => simplifyClient e.2)), stf)
      ∧ stf.queue = [] := by
  induction rest with
  | nil =>
      intro st k c f B hq hcur hp hB hfill hf
      cases f with
      | zero =>
          exfalso
          omega
      | succ f' =>
          have hlook : qlookup st.queue (st.currentTicket + 1) = none := by
            rw [hq, hcur]
            simp only [qlookup]
            rw [if_neg (by omega)]
          have hrm : qremove st.queue st.currentTicket = [] := by
            rw [hq, hcur]
            simp [qremove, List.filter]
          have hnext : nextF (f' + 1) st
              = (some NextRes.finished,
                 { st with currentTicket := st.currentTicket + 1, queue := [],
                           status := "empty", events := st.events ++ [Event.finished] }) := by
            simp only [nextF, Nat.add_sub_cancel]
            rw [hrm, hlook]
            rfl
          refine ⟨{ st with currentTicket := st.currentTicket + 1, queue := [], status := "empty", events := st.events ++ [Event.finished] }, ?_, rfl⟩
          simp only [drainF, hnext, List.map_nil]
  | cons e2 r2 ih =>
      obtain ⟨k2, c2⟩ := e2
      intro st k c f B hq hcur hp hB hfill hf
      cases f with
      | zero =>
          exfalso
          simp only [List.length_cons] at hf
          omega
      | succ f' =>
          have hk2 : k < k2 := by
            rw [hq] at hp
            exact (List.pairwise_cons.1 hp).1 (k2, c2) (List.mem_cons_self _ _)
          have hr2gt : ∀ e ∈ r2, k2 < e.1 := by
            intro e he
            rw [hq] at hp
            exact (List.pairwise_cons.1 (List.pairwise_cons.1 hp).2).1 e he
          have hrm : qremove st.queue st.currentTicket = (k2, c2) :: r2 := by
            rw [hq, hcur]
            have h1 : qremove ((k, c) :: (k2, c2) :: r2) k = qremove ((k2, c2) :: r2) k := by
              simp [qremove, List.filter_cons]
            rw [h1]
            apply qremove_eq_self
            intro e he
            rcases List.mem_cons.1 he with h2 | h2
            · have : e.1 = k2 := by rw [h2]
              omega
            · have := hr2gt e h2
              omega
          have hv2 : isVoid c2.value = false := hfill (k2, c2) (List.mem_cons_self _ _)
          have hB2 : k2 ≤ B := hB (k2, c2) (by rw [hq]; simp)
          have hnext : nextF (f' + 1) st
              = (some (NextRes.served (simplifyClient c2)),
                 { st with currentTicket := k2, queue := (k2, c2) :: r2 }) := by
            by_cases hk21 : k2 = st.currentTicket + 1
            · have hlook2 : qlookup st.queue (st.currentTicket + 1) = some c2 := by
                rw [hq]
                simp only [qlookup]
                rw [if_neg (by omega)]
                rw [if_pos hk21]
              simp only [nextF, Nat.add_sub_cancel]
              rw [hrm, hlook2]
              rw [if_neg (by simp [qsize])]
              simp only [hv2, Bool.false_eq_true, if_false]
              rw [← hk21]
            · have hlook2 : qlookup st.queue (st.currentTicket + 1) = none := by
                rw [hq]
                simp only [qlookup]
                rw [if_neg (by omega)]
                rw [if_neg hk21]
                apply qlookup_eq_none_of_lt
                intro e he
                have := hr2gt e he
                omega
              simp only [nextF, Nat.add_sub_cancel]
              rw [hrm, hlook2]
              rw [if_neg (by simp [qsize])]
              have hserve := nextF_serves_head f'
                { st with currentTicket := st.currentTicket + 1, queue := (k2, c2) :: r2 }
                k2 c2 r2 rfl (by show st.currentTicket + 1 < k2; omega)
                (by
                  show k2 ≤ st.currentTicket + 1 + f'
                  simp only [List.length_cons] at hf
                  omega)
                (by
                  intro e he
                  show st.currentTicket + 1 < e.1
                  have he' : e ∈ (k2, c2) :: r2 := he
                  rcases List.mem_cons.1 he' with h1 | h1
                  · have : e.1 = k2 := by rw [h1]
                    omega
                  · have := hr2gt e h1
                    omega)
                (by
                  show List.Pairwise _ ((k2, c2) :: r2)
                  rw [hq] at hp
                  exact (List.pairwise_cons.1 hp).2)
                hv2
              rw [hserve]
          have hstep : drainF (f' + 1) st
              = match drainF f' { st with currentTicket := k2, queue := (k2, c2) :: r2 } with
                | (none, st2) => (none, st2)
                | (some l, st2) => (some (simplifyClient c2 :: l), st2) := by
            simp only [drainF, hnext]
          obtain ⟨stf, hdf, hqe⟩ := ih { st with currentTicket := k2, queue := (k2, c2) :: r2 }
            k2 c2 f' B rfl rfl
            (by
              show List.Pairwise _ ((k2, c2) :: r2)
              rw [hq] at hp
              exact (List.pairwise_cons.1 hp).2)
            (by
              intro e he
              have he' : e ∈ (k2, c2) :: r2 := he
              exact hB e (by rw [hq]; exact List.mem_cons_of_mem _ he'))
            (fun e he => hfill e (List.mem_cons_of_mem _ he))
            (by
              simp only [List.length_cons] at hf
              omega)
          refine ⟨stf, ?_, hqe⟩
          rw [hstep, hdf]
          simp [List.map_cons]

theorem drainF_all (st : QState) (B f : Nat)
    (hp : List.Pairwise (fun a b : Nat × Client => a.1 < b.1) st.queue)
    (hall : ∀ e ∈ st.queue, st.currentTicket < e.1 ∧ e.1 ≤ B)
    (hfill : ∀ e ∈ st.queue, isVoid e.2.value = false)
    (hf : st.queue.length + B + 2 ≤ f) :
    ∃ stf, drainF f st = (some (st.queue.map (fun e => simplifyClient e.2)), stf)
      ∧ stf.queue = [] := by
  cases f with
  | zero =>
      exfalso
      omega
  | succ f' =>
      cases hq : st.queue with
      | nil =>
          have hlook : qlookup st.queue (st.currentTicket + 1) = none := by
            rw [hq]
            rfl
          have hrm : qremove st.queue st.currentTicket = [] := by
            rw [hq]
            rfl
          have hnext : nextF (f' + 1) st
              = (some NextRes.finished,
                 { st with currentTicket := st.currentTicket + 1, queue := [],
                           status := "empty", events := st.events ++ [Event.finished] }) := by
            simp only [nextF, Nat.add_sub_cancel]
            rw [hrm, hlook]
            rfl
          refine ⟨{ st with currentTicket := st.currentTicket + 1, queue := [], status := "empty", events := st.events ++ [Event.finished] }, ?_, rfl⟩
          simp only [drainF, hnext, List.map_nil]
      | cons e1 rest =>
          obtain ⟨k1, c1⟩ := e1
          have hcur1 : st.currentTicket < k1 := (hall (k1, c1) (by rw [hq]; simp)).1
          have hB1 : k1 ≤ B := (hall (k1, c1) (by rw [hq]; simp)).2
          have hlen : st.queue.length = rest.length + 1 := by
            rw [hq]
            rfl
          have hserve := nextF_serves_head (f' + 1) st k1 c1 rest hq hcur1
            (by omega)
            (fun e he => (hall e he).1)
            hp
            (hfill (k1, c1) (by rw [hq]; simp))
          obtain ⟨stf, hdf, hqe⟩ := drainF_from rest
            { st with currentTicket := k1 } k1 c1 f' B
            (by show st.queue = _; exact hq)
            rfl
            (by show List.Pairwise _ st.queue; exact hp)
            (by
              intro e he
              have he' : e ∈ st.queue := he
              exact (hall e he').2)
            (fun e he => hfill e (by rw [hq]; exact List.mem_cons_of_mem _ he))
            (by omega)
          refine ⟨stf, ?_, hqe⟩
          simp only [drainF, hserve, hdf, List.map_cons]

theorem prepInv_setClient (k : Nat) (v : JVal) (st : QState) (h : prepInv st) :
    prepInv (setClient k v st).2 := by
  obtain ⟨hcur, hp, hb⟩ := h
  cases hl : qlookup st.queue k with
  | none =>
      have hsc : (setClient k v st).2
          = addError ("Ticket No. " ++ toString k ++ " has expired.") st := by
        unfold setClient
        simp only [hl]
      rw [hsc]
      exact ⟨hcur, hp, hb⟩
  | some c =>
      have hmem := qlookup_mem _ _ _ hl
      have hkb := hb (k, c) hmem
      have hgoal : prepInv
          { st with status := "filling",
                    queue := qset st.queue k
                      { c with value := v, id := k, status := "pending", expHandler := none },
                    timers := (clearTimer c.expHandler st).timers } := by
        refine ⟨hcur, ?_, ?_⟩
        · show List.Pairwise _ (qset st.queue k _)
          exact pairwise_qset_present st.queue k _ c hp hl
        · intro e' he'
          show 0 < e'.1 ∧ e'.1 ≤ st.ticketNumber ∧ e'.2.id = e'.1
          have he'' : e' ∈ qset st.queue k
              { c with value := v, id := k, status := "pending", expHandler := none } := he'
          rcases mem_qset _ _ _ _ he'' with h1 | h1
          · exact hb e' h1
          · rw [h1]
            exact ⟨hkb.1, hkb.2.1, rfl⟩
      cases he : c.expiresAt with
      | some e =>
          by_cases hle : st.now ≤ e
          · have hsc : (setClient k v st).2
                = { st with status := "filling",
                            queue := qset st.queue k
                              { c with value := v, id := k, status := "pending",
                                       expHandler := none },
                            timers := (clearTimer c.expHandler st).timers } := by
              unfold setClient
              simp only [hl, he]
              rw [if_pos hle]
              rfl
            rw [hsc]
            exact hgoal
          · have hsc : (setClient k v st).2
                = addError ("Ticket No. " ++ toString k ++ " has expired.") st := by
              unfold setClient
              simp only [hl, he]
              rw [if_neg hle]
            rw [hsc]
            exact ⟨hcur, hp, hb⟩
      | none =>
          have hsc : (setClient k v st).2
              = { st with status := "filling",
                          queue := qset st.queue k
                            { c with value := v, id := k, status := "pending",
                                     expHandler := none },
                          timers := (clearTimer c.expHandler st).timers } := by
            unfold setClient
            simp only [hl, he]
            rfl
          rw [hsc]
          exact hgoal

theorem prepInv_getTicket (lt : Option Nat) (st : QState) (h : prepInv st) :
    prepInv (getTicket lt st).2 := by
  obtain ⟨hcur, hp, hb⟩ := h
  cases hcap : limitReached st with
  | true =>
      rw [getTicket_fail lt st hcap]
      exact ⟨hcur, hp, hb⟩
  | false =>
      rw [getTicket_success lt st hcap]
      have hfresh : ∀ e ∈ st.queue, e.1 < st.ticketNumber + 1 := by
        intro e he
        have := (hb e he).2.1
        omega
      refine ⟨?_, ?_, ?_⟩
      · rw [createClient_currentTicket]
        exact hcur
      · rw [createClient_queue]
        exact pairwise_qset_fresh _ _ _ hp hfresh
      · intro e he
        rw [createClient_queue] at he
        rw [createClient_tn]
        show 0 < e.1 ∧ e.1 ≤ st.ticketNumber + 1 ∧ e.2.id = e.1
        rcases mem_qset _ _ _ _ he with h1 | h1
        · have := hb e h1
          exact ⟨this.1, by omega, this.2.2⟩
        · rw [h1]
          exact ⟨by omega, by omega, rfl⟩

theorem prepInv_joinGo (f : Nat) : ∀ (t d : JVal) (st : QState),
    prepInv st → prepInv (joinGo f t d st).2 := by
  induction f with
  | zero => intro t d st h; exact h
  | succ f ih =>
      intro t d st h
      rw [joinGo_succ]
      split
      · exact prepInv_setClient _ _ _ h
      · cases hcap : limitReached st with
        | true =>
            have hca : checkAvailability st
                = (false, addError "The queue has reached its limit." { st with status := "full" }) := by
              unfold checkAvailability
              rw [hcap]
              rfl
            rw [hca]
            dsimp only
            rw [if_neg (by simp)]
            exact ⟨h.1, h.2.1, h.2.2⟩
        | false =>
            have hca : checkAvailability st = (true, st) := by
              unfold checkAvailability
              rw [hcap]
              rfl
            rw [hca]
            dsimp only
            rw [if_pos rfl]
            rw [getTicket_success _ _ hcap]
            dsimp only
            apply ih
            have h2 := prepInv_getTicket none st h
            rw [getTicket_success none st hcap] at h2
            exact h2

theorem foldl_qremove_sublist : ∀ (l : List Timer) (q : List (Nat × Client)),
    List.Sublist (l.foldl (fun q tm => qremove q tm.ticket) q) q := by
  intro l
  induction l with
  | nil => intro q; exact List.Sublist.refl q
  | cons tm l ih =>
      intro q
      exact (ih (qremove q tm.ticket)).trans (List.filter_sublist q)

theorem prepInv_tick (dt : Nat) (st : QState) (h : prepInv st) : prepInv (tick dt st) := by
  obtain ⟨hcur, hp, hb⟩ := h
  have hsub : List.Sublist (tick dt st).queue st.queue :=
    foldl_qremove_sublist _ st.queue
  refine ⟨hcur, ?_, ?_⟩
  · exact List.Pairwise.sublist hsub hp
  · intro e he
    exact hb e (hsub.subset he)

theorem prepInv_run : ∀ (ops : List Op) (st : QState),
    (∀ op ∈ ops, isPrep op = true) → prepInv st → prepInv (run ops st) := by
  intro ops
  induction ops with
  | nil => intro st _ h; exact h
  | cons op r ih =>
      intro st hprep h
      have h1 : isPrep op = true := hprep op (List.mem_cons_self _ _)
      have h2 : ∀ op' ∈ r, isPrep op' = true := fun op' h' => hprep op' (List.mem_cons_of_mem _ h')
      show prepInv (run r (step op st))
      apply ih _ h2
      cases op with
      | issue lt => exact prepInv_getTicket lt st h
      | joinOp t d => exact prepInv_joinGo 3 t d st h
      | tickOp dt => exact prepInv_tick dt st h
      | nextOp f => cases h1
      | currentOp => cases h1
      | resetOp => cases h1

/-- C1 (confirmed): after any issue/attach phase (ticket issuance,
targeted or untargeted attachment, and the passage of time) in which every
issued ticket has been attached before its expiry — so that every record
remaining in the mapping carries a non-void value — repeated calls to
`next` yield exactly the mapping's records in strictly increasing ticket-id
order, each exactly once (expired reservations having been evicted are
simply skipped), ending with the `finished` signal and an empty mapping.
In particular, attachment order does not matter: the scenario
`demoOps` (issue ticket 1, untargeted "Jimmy" as id 2, then "Bob" onto
ticket 1) drains as Bob (id 1) before Jimmy (id 2). -/
theorem c1_advance_in_order (ops : List Op)
    (hprep : ∀ op ∈ ops, isPrep op = true)
    (hfill : ∀ e ∈ (run ops initQ).queue, isVoid e.2.value = false) :
    List.Pairwise (fun a b : SClient => a.id < b.id)
      ((run ops initQ).queue.map (fun e => simplifyClient e.2))
    ∧ ∃ stf,
        drainF ((run ops initQ).queue.length + (run ops initQ).ticketNumber + 2)
          (run ops initQ)
          = (some ((run ops initQ).queue.map (fun e => simplifyClient e.2)), stf)
        ∧ stf.queue = [] := by
  have hinv := prepInv_run ops initQ hprep ⟨rfl, List.Pairwise.nil, by intro e he; cases he⟩
  obtain ⟨hcur, hp, hb⟩ := hinv
  constructor
  · rw [List.pairwise_map]
    refine List.Pairwise.imp_of_mem ?_ hp
    intro a b ha hb' hr
    have hida : a.2.id = a.1 := (hb a ha).2.2
    have hidb : b.2.id = b.1 := (hb b hb').2.2
    show (simplifyClient a.2).id < (simplifyClient b.2).id
    simp only [simplifyClient]
    omega
  · apply drainF_all (run ops initQ) ((run ops initQ).ticketNumber) _ hp ?_ hfill (Nat.le_refl _)
    intro e he
    have := hb e he
    refine ⟨?_, this.2.1⟩
    have h1 := this.1
    omega

/-- C1 witness: the claim's scenario — issue ticket 1, untargeted "Jimmy"
(consuming id 2), then "Bob" onto ticket 1 — satisfies the hypotheses and
drains as Bob (id 1) before Jimmy (id 2). -/
theorem c1_advance_in_order_witness :
    (∀ op ∈ demoOps, isPrep op = true)
    ∧ (∀ e ∈ (run demoOps initQ).queue, isVoid e.2.value = false)
    ∧ (run demoOps initQ).queue.map (fun e => simplifyClient e.2)
        = [⟨1, JVal.vstr "Bob"⟩, ⟨2, JVal.vstr "Jimmy"⟩]
    ∧ (List.Pairwise (fun a b : SClient => a.id < b.id)
        ((run demoOps initQ).queue.map (fun e => simplifyClient e.2))
      ∧ ∃ stf,
          drainF ((run demoOps initQ).queue.length + (run demoOps initQ).ticketNumber + 2)
            (run demoOps initQ)
            = (some ((run demoOps initQ).queue.map (fun e => simplifyClient e.2)), stf)
          ∧ stf.queue = []) :=
  ⟨by decide, by decide, by decide, c1_advance_in_order demoOps (by decide) (by decide)⟩

theorem createClient_events (k : Nat) (lt : Option Nat) (st : QState) :
    (createClient k lt st).events = st.events := by
  cases lt <;> rfl

/-- C9 (corrected): the disambiguation of `join(ticket, data)` is by shape
only — the ticketed path runs exactly when the first argument is numeric
and the data argument is non-void, whether or not that number is an
outstanding ticket id.  Otherwise the untargeted path treats the first
argument as the payload, enforcing the capacity check at each self-call:
at capacity it reports the capacity error (status `full`) and issues
nothing; below capacity it issues a fresh ticket and recurses with that
new id and the first argument as data.  A non-void first argument thus
ends as a pending record holding it at the fresh id; a void first argument
sends the recursion down the untargeted path a second time, where the
capacity check runs again (and can fail after the first issuance, leaving
that reservation `missing`), and otherwise a second ticket is issued whose
pending record holds the first fresh ticket's number as its value, the
first record remaining `missing`. -/
theorem c9_join_dispatch (st : QState) (t d : JVal) :
    ((isNumeric t && !(isVoid d)) = true
      ∧ join t d st = (some (setClient (jToNat t) d st).1, (setClient (jToNat t) d st).2))
    ∨ ((isNumeric t && !(isVoid d)) = false ∧ limitReached st = true
      ∧ join t d st
        = (none, addError "The queue has reached its limit." { st with status := "full" }))
    ∨ ((isNumeric t && !(isVoid d)) = false ∧ limitReached st = false ∧ isVoid t = false
      ∧ (join t d st).1 = some true
      ∧ (join t d st).2.ticketNumber = st.ticketNumber + 1
      ∧ Option.map Client.value (qlookup (join t d st).2.queue (st.ticketNumber + 1)) = some t
      ∧ Option.map Client.status (qlookup (join t d st).2.queue (st.ticketNumber + 1))
        = some "pending")
    ∨ ((isNumeric t && !(isVoid d)) = false ∧ limitReached st = false ∧ isVoid t = true
      ∧ limitReached (getTicket none st).2 = true
      ∧ (join t d st).1 = none
      ∧ (join t d st).2.ticketNumber = st.ticketNumber + 1
      ∧ (join t d st).2.status = "full"
      ∧ (join t d st).2.events
        = st.events ++ [Event.error "The queue has reached its limit." "full"]
      ∧ Option.map Client.status (qlookup (join t d st).2.queue (st.ticketNumber + 1))
        = some "missing")
    ∨ ((isNumeric t && !(isVoid d)) = false ∧ limitReached st = false ∧ isVoid t = true
      ∧ limitReached (getTicket none st).2 = false
      ∧ (join t d st).1 = some true
      ∧ (join t d st).2.ticketNumber = st.ticketNumber + 2
      ∧ Option.map Client.value (qlookup (join t d st).2.queue (st.ticketNumber + 2))
        = some (JVal.vnum (st.ticketNumber + 1))
      ∧ Option.map Client.status (qlookup (join t d st).2.queue (st.ticketNumber + 2))
        = some "pending"
      ∧ Option.map Client.status (qlookup (join t d st).2.queue (st.ticketNumber + 1))
        = some "missing") := by
  by_cases hshape : (isNumeric t && !(isVoid d)) = true
  · left
    refine ⟨hshape, ?_⟩
    unfold join
    rw [joinGo_succ, if_pos hshape]
  · have hshape' : (isNumeric t && !(isVoid d)) = false := by
      cases hb : (isNumeric t && !(isVoid d)) with
      | true => exact absurd hb hshape
      | false => rfl
    cases hcap : limitReached st with
    | true =>
        right; left
        refine ⟨hshape', rfl, ?_⟩
        unfold join
        rw [joinGo_succ, if_neg (by simp [hshape'])]
        have hca : checkAvailability st
            = (false, addError "The queue has reached its limit." { st with status := "full" }) := by
          unfold checkAvailability
          rw [hcap]
          rfl
        rw [hca]
        dsimp only
        rw [if_neg (by simp)]
    | false =>
        have hca : checkAvailability st = (true, st) := by
          unfold checkAvailability
          rw [hcap]
          rfl
        have hj1 : join t d st
            = joinGo 2 (JVal.vnum (st.ticketNumber + 1)) t
                (createClient (st.ticketNumber + 1) (resolveLifetime none st)
                  { st with ticketNumber := st.ticketNumber + 1 }) := by
          unfold join
          rw [joinGo_succ, if_neg (by simp [hshape'])]
          rw [hca]
          dsimp only
          rw [if_pos rfl, getTicket_success none st hcap]
        cases hvt : isVoid t with
        | false =>
            right; right; left
            have hold := join_untargeted_nonvoid st t d hshape' hvt hcap
            exact ⟨hshape', rfl, rfl, hold.1, hold.2.1, hold.2.2.1, hold.2.2.2⟩
        | true =>
            have hshape2 : (isNumeric (JVal.vnum (st.ticketNumber + 1)) && !(isVoid t)) = false := by
              simp [isNumeric, hvt]
            have hsnd : (getTicket none st).2
                = createClient (st.ticketNumber + 1) (resolveLifetime none st)
                    { st with ticketNumber := st.ticketNumber + 1 } := by
              rw [getTicket_success none st hcap]
            cases hcap2 : limitReached (getTicket none st).2 with
            | true =>
                right; right; right; left
                have hcapA : limitReached (createClient (st.ticketNumber + 1)
                      (resolveLifetime none st) { st with ticketNumber := st.ticketNumber + 1 })
                    = true := by
                  rw [← hsnd]
                  exact hcap2
                set A := createClient (st.ticketNumber + 1) (resolveLifetime none st)
                  { st with ticketNumber := st.ticketNumber + 1 } with hA
                have hcaA : checkAvailability A
                    = (false, addError "The queue has reached its limit."
                        { A with status := "full" }) := by
                  unfold checkAvailability
                  rw [hcapA]
                  rfl
                have hj2 : join t d st
                    = (none, addError "The queue has reached its limit."
                        { A with status := "full" }) := by
                  rw [hj1, joinGo_succ, if_neg (by simp [hshape2])]
                  rw [hcaA]
                  dsimp only
                  rw [if_neg (by simp)]
                have hAtn : A.ticketNumber = st.ticketNumber + 1 := by
                  rw [hA]
                  exact createClient_tn _ _ _
                refine ⟨hshape', rfl, rfl, rfl, ?_, ?_, ?_, ?_, ?_⟩
                · rw [hj2]
                · rw [hj2]
                  show A.ticketNumber = st.ticketNumber + 1
                  exact hAtn
                · rw [hj2]
                  rfl
                · rw [hj2]
                  show A.events ++ [Event.error "The queue has reached its limit." "full"]
                    = st.events ++ [Event.error "The queue has reached its limit." "full"]
                  rw [hA]
                  rw [createClient_events]
                · rw [hj2]
                  show Option.map Client.status (qlookup A.queue (st.ticketNumber + 1))
                    = some "missing"
                  rw [hA, createClient_queue, qlookup_qset_self]
                  rfl
            | false =>
                right; right; right; right
                have hcapA : limitReached (createClient (st.ticketNumber + 1)
                      (resolveLifetime none st) { st with ticketNumber := st.ticketNumber + 1 })
                    = false := by
                  rw [← hsnd]
                  exact hcap2
                set A := createClient (st.ticketNumber + 1) (resolveLifetime none st)
                  { st with ticketNumber := st.ticketNumber + 1 } with hA
                have hAtn : A.ticketNumber = st.ticketNumber + 1 := by
                  rw [hA]
                  exact createClient_tn _ _ _
                have hj2 : joinGo 2 (JVal.vnum (st.ticketNumber + 1)) t A
                    = joinGo 1 (JVal.vnum (A.ticketNumber + 1)) (JVal.vnum (st.ticketNumber + 1))
                        (createClient (A.ticketNumber + 1) (resolveLifetime none A)
                          { A with ticketNumber := A.ticketNumber + 1 }) := by
                  have hcaA : checkAvailability A = (true, A) := by
                    unfold checkAvailability
                    rw [hcapA]
                    rfl
                  rw [joinGo_succ, if_neg (by simp [hshape2])]
                  rw [hcaA]
                  dsimp only
                  rw [if_pos rfl, getTicket_success none A hcapA]
                have hj3 : join t d st
                    = (some (setClient (A.ticketNumber + 1) (JVal.vnum (st.ticketNumber + 1))
                          (createClient (A.ticketNumber + 1) (resolveLifetime none A)
                            { A with ticketNumber := A.ticketNumber + 1 })).1,
                       (setClient (A.ticketNumber + 1) (JVal.vnum (st.ticketNumber + 1))
                          (createClient (A.ticketNumber + 1) (resolveLifetime none A)
                            { A with ticketNumber := A.ticketNumber + 1 })).2) := by
                  rw [hj1, hj2]
                  exact joinGo_numeric_nonvoid 1 (by omega) (A.ticketNumber + 1)
                    (JVal.vnum (st.ticketNumber + 1)) rfl
                    (createClient (A.ticketNumber + 1) (resolveLifetime none A)
                      { A with ticketNumber := A.ticketNumber + 1 })
                have hsf := setClient_fresh (A.ticketNumber + 1) (JVal.vnum (st.ticketNumber + 1))
                  (resolveLifetime none A) { A with ticketNumber := A.ticketNumber + 1 }
                refine ⟨hshape', rfl, rfl, rfl, ?_, ?_, ?_, ?_, ?_⟩
                · rw [hj3, hsf.1]
                · rw [hj3]
                  dsimp only
                  rw [hsf.2.1]
                  show A.ticketNumber + 1 = st.ticketNumber + 2
                  omega
                · have hidx : st.ticketNumber + 2 = A.ticketNumber + 1 := by omega
                  rw [hj3]
                  dsimp only
                  rw [hidx, hsf.2.2.1]
                  rfl
                · have hidx : st.ticketNumber + 2 = A.ticketNumber + 1 := by omega
                  rw [hj3]
                  dsimp only
                  rw [hidx, hsf.2.2.1]
                  rfl
                · rw [hj3]
                  dsimp only
                  rw [hsf.2.2.2 (st.ticketNumber + 1) (by omega)]
                  show Option.map Client.status (qlookup A.queue (st.ticketNumber + 1))
                    = some "missing"
                  rw [hA, createClient_queue, qlookup_qset_self]
                  rfl
